import Mathlib

/-!
Shallow embedding of the asset-transfer chaincode (Go, two variants).

The ledger world state is an association list from store keys to asset
records.  A store key is either a Fabric composite key (built by
CreateCompositeKey from an object type and an attribute list; in Fabric
such keys begin with U+0000 and are therefore disjoint from the plain
string keys the code sometimes passes to PutState directly) or a raw
string key.  We model the two disjoint classes with an inductive type,
which captures exactly the injectivity and disjointness properties the
real encoding has.

JSON marshalling of an Asset never fails and round-trips, so the store
holds Asset values directly.  Each Go return site that produces an error
is mapped to a LedgerError constructor named after the error kind of the
specification.  Operations are embedded in a state-passing style: they
return the store as written so far together with the outcome, so that
"fails without performing any write" is expressible as the returned
store being the input store.

Namespace V1 embeds
src/asset-transfer-basic/chaincode-go/chaincode/smartcontract.go,
namespace V2 embeds the variant in src/unnamed/part_000 (the file that
contains TransferGemToDistrib).
-/

inductive StoreKey where
  | composite (objectType : String) (attrs : List String)
  | raw (k : String)
deriving DecidableEq

structure Asset where
  ID : String
  Owner : String
  Amount : Int
deriving DecidableEq

/-- Build an asset record; fields as in the Go struct. -/
def mkAsset (id owner : String) (amount : Int) : Asset :=
  ⟨id, owner, amount⟩

/-- The Go pattern asset.Amount = newValue with the other fields kept. -/
def setAmount (a : Asset) (n : Int) : Asset :=
  ⟨a.ID, a.Owner, n⟩

/-- World state: committed key/value pairs. -/
abbrev Store := List (StoreKey × Asset)

def emptyStore : Store := []

/-- stub.GetState: the value at a key, or none. -/
def getState : Store → StoreKey → Option Asset
  | [], _ => none
  | (k1, a) :: rest, k => if k1 = k then some a else getState rest k

/-- stub.PutState: overwrite the value at a key, or append a new pair. -/
def putState : Store → StoreKey → Asset → Store
  | [], k, a => [(k, a)]
  | (k1, a1) :: rest, k, a =>
      if k1 = k then (k, a) :: rest else (k1, a1) :: putState rest k a

/-- stub.CreateCompositeKey. -/
def createCompositeKey (objectType : String) (attrs : List String) : StoreKey :=
  StoreKey.composite objectType attrs

/-- The composite key every asset operation derives from (id, owner). -/
def assetKey (id owner : String) : StoreKey :=
  createCompositeKey "Asset" [id, owner]

/-- Error kinds, one per distinct error return site of the code. -/
inductive LedgerError where
  | notFound
  | alreadyExists
  | insufficientBalance
  | invalidArgument
deriving DecidableEq

deriving instance DecidableEq for Except

/-- Balance stored at a key, defaulting to 0 when the key is absent. -/
def amountAt (store : Store) (k : StoreKey) : Int :=
  match getState store k with
  | some a => a.Amount
  | none => 0

/-- Keys that count toward the per-kind balance total: composite asset
keys whose first attribute is the given kind. -/
def isKindKey (kind : String) : StoreKey → Bool
  | StoreKey.composite ns attrs =>
      match attrs with
      | [k, _] => ns == "Asset" && k == kind
      | _ => false
  | StoreKey.raw _ => false

/-- Sum of Amount over all records stored under a composite key of the
given kind (the per-kind supply of the conservation invariant). -/
def totalFor (kind : String) : Store → Int
  | [] => 0
  | (k, a) :: rest => (if isKindKey kind k then a.Amount else 0) + totalFor kind rest

/-- Every stored record has a non-negative Amount. -/
def NonNegStore (store : Store) : Prop :=
  ∀ e ∈ store, 0 ≤ (Prod.snd e).Amount

instance (store : Store) : Decidable (NonNegStore store) := by
  unfold NonNegStore; infer_instance

namespace V1

/-- The six literal bootstrap records of InitLedger in smartcontract.go. -/
def initAssets : List Asset :=
  [ mkAsset "exp" "distrib" 5,
    mkAsset "gem" "seo" 3000,
    mkAsset "gem" "team1" 3,
    mkAsset "exp" "team1" 6,
    mkAsset "gem" "team2" 15,
    mkAsset "exp" "team2" 30 ]

/-- InitLedger: put each seeded record under its composite key. -/
def InitLedger (store : Store) : Store :=
  initAssets.foldl (fun s a => putState s (assetKey a.ID a.Owner) a) store

/-- AssetExists(ctx, id, owner): GetState at the composite key. -/
def AssetExists (store : Store) (id owner : String) : Bool :=
  (getState store (assetKey id owner)).isSome

/-- CreateAsset(ctx, id, amount, owner). -/
def CreateAsset (store : Store) (id : String) (amount : Int) (owner : String) :
    Store × Option LedgerError :=
  if AssetExists store id owner then
    (store, some LedgerError.alreadyExists)
  else
    (putState store (assetKey id owner) (mkAsset id owner amount), none)

/-- ReadAsset(ctx, id, owner). -/
def ReadAsset (store : Store) (id owner : String) : Except LedgerError Asset :=
  match getState store (assetKey id owner) with
  | some a => Except.ok a
  | none => Except.error LedgerError.notFound

/-- UpdateAsset(ctx, id, owner, amount): the existence check uses the
composite key, but the PutState call uses the raw id, as in the source. -/
def UpdateAsset (store : Store) (id owner : String) (amount : Int) :
    Store × Option LedgerError :=
  if AssetExists store id owner then
    (putState store (StoreKey.raw id) (mkAsset id owner amount), none)
  else
    (store, some LedgerError.notFound)

/-- TransferAsset(ctx, id, owner, newOwner, amount): reads the source,
checks the balance, writes the destination record with Amount equal to
the transferred amount, then writes the debited source record. -/
def TransferAsset (store : Store) (id owner newOwner : String) (amount : Int) :
    Store × Except LedgerError String :=
  match ReadAsset store id owner with
  | Except.error e => (store, Except.error e)
  | Except.ok asset =>
    if asset.Amount < amount then
      (store, Except.error LedgerError.insufficientBalance)
    else
      let oldOwner := asset.Owner
      let debited := setAmount asset (asset.Amount - amount)
      let newAsset := mkAsset id newOwner amount
      let s1 := putState store (assetKey id newOwner) newAsset
      let s2 := putState s1 (assetKey id owner) debited
      (s2, Except.ok oldOwner)

/-- GetAllAssets: every record stored under a composite key in the
"Asset" namespace, in store order. -/
def GetAllAssets (store : Store) : List Asset :=
  (store.filter (fun e =>
    match Prod.fst e with
    | StoreKey.composite ns _ => ns == "Asset"
    | StoreKey.raw _ => false)).map Prod.snd

end V1

namespace V2

/-- AssetExists(ctx, id) of the variant: GetState directly at the given
key string, with no composite-key derivation. -/
def AssetExists (store : Store) (k : StoreKey) : Bool :=
  (getState store k).isSome

/-- UpdateAsset of the variant: both the existence check and the write
use the raw id. -/
def UpdateAsset (store : Store) (id owner : String) (amount : Int) :
    Store × Option LedgerError :=
  if AssetExists store (StoreKey.raw id) then
    (putState store (StoreKey.raw id) (mkAsset id owner amount), none)
  else
    (store, some LedgerError.notFound)

/-- TransferGemToDistrib(ctx, user, gemAmount): validate the amount,
debit the gem record of the user, credit the gem record of "Distrib"
(default 0 when absent), then credit the exp record of the user
(default 0 when absent).  The exp read happens after the two gem
writes in the code; the keys are distinct so this equals a read of the
initial snapshot. -/
def TransferGemToDistrib (store : Store) (user : String) (gemAmount : Int) :
    Store × Option LedgerError :=
  if gemAmount ≤ 0 then
    (store, some LedgerError.invalidArgument)
  else
    let userGemKey := assetKey "gem" user
    match getState store userGemKey with
    | none => (store, some LedgerError.notFound)
    | some userGem =>
      if userGem.Amount < gemAmount then
        (store, some LedgerError.insufficientBalance)
      else
        let distribGemKey := assetKey "gem" "Distrib"
        let distribGem := (getState store distribGemKey).getD (mkAsset "gem" "Distrib" 0)
        let userGem1 := setAmount userGem (userGem.Amount - gemAmount)
        let distribGem1 := setAmount distribGem (distribGem.Amount + gemAmount)
        let s1 := putState store userGemKey userGem1
        let s2 := putState s1 distribGemKey distribGem1
        let userExpKey := assetKey "exp" user
        let userExp := (getState s2 userExpKey).getD (mkAsset "exp" user 0)
        let userExp1 := setAmount userExp (userExp.Amount + gemAmount)
        (putState s2 userExpKey userExp1, none)

end V2

/-- Two gem records: owner A with 10, owner B with 5. -/
def storeAB : Store :=
  [ (assetKey "gem" "A", mkAsset "gem" "A" 10),
    (assetKey "gem" "B", mkAsset "gem" "B" 5) ]

/-- One gem record for alice with balance 5. -/
def storeAlice : Store :=
  [ (assetKey "gem" "alice", mkAsset "gem" "alice" 5) ]

/-- One gem record for the collector identity with balance 5. -/
def storeDistrib : Store :=
  [ (assetKey "gem" "Distrib", mkAsset "gem" "Distrib" 5) ]

/-- One gem record for seo with balance 10. -/
def storeSeo : Store :=
  [ (assetKey "gem" "seo", mkAsset "gem" "seo" 10) ]

/-! ### Shared lemmas about the store model -/

theorem getState_putState_self (s : Store) (k : StoreKey) (a : Asset) :
    getState (putState s k a) k = some a := by
  induction s with
  | nil => simp [putState, getState]
  | cons e rest ih =>
    obtain ⟨k1, a1⟩ := e
    by_cases h : k1 = k
    · simp [putState, h, getState]
    · simp [putState, h, getState, ih]

theorem getState_putState_other (s : Store) (k k2 : StoreKey) (a : Asset)
    (h : k2 ≠ k) : getState (putState s k a) k2 = getState s k2 := by
  induction s with
  | nil => simp [putState, getState, Ne.symm h]
  | cons e rest ih =>
    obtain ⟨k1, a1⟩ := e
    by_cases h1 : k1 = k
    · subst h1
      simp [putState, getState, Ne.symm h]
    · simp [putState, getState, h1, ih]

theorem amountAt_putState_self (s : Store) (k : StoreKey) (a : Asset) :
    amountAt (putState s k a) k = a.Amount := by
  unfold amountAt
  rw [getState_putState_self]

theorem amountAt_putState_other (s : Store) (k k2 : StoreKey) (a : Asset)
    (h : k2 ≠ k) : amountAt (putState s k a) k2 = amountAt s k2 := by
  unfold amountAt
  rw [getState_putState_other _ _ _ _ h]

theorem amountAt_of_getState (s : Store) (k : StoreKey) (a : Asset)
    (h : getState s k = some a) : amountAt s k = a.Amount := by
  unfold amountAt
  rw [h]

theorem totalFor_putState (kind : String) (s : Store) (k : StoreKey) (a : Asset) :
    totalFor kind (putState s k a) =
      totalFor kind s + (if isKindKey kind k then a.Amount - amountAt s k else 0) := by
  induction s with
  | nil =>
    simp [putState, totalFor, amountAt, getState]
  | cons e rest ih =>
    obtain ⟨k1, a1⟩ := e
    by_cases h1 : k1 = k
    · have ha : amountAt ((k1, a1) :: rest) k = a1.Amount := by
        simp [amountAt, getState, h1]
      simp only [putState, if_pos h1, totalFor, ha]
      subst h1
      by_cases hk : isKindKey kind k1 = true
      all_goals simp [hk]
      all_goals omega
    · simp only [putState, if_neg h1, totalFor, ih]
      have ha : amountAt ((k1, a1) :: rest) k = amountAt rest k := by
        simp [amountAt, getState, h1]
      rw [ha]
      ring

theorem getState_mem (s : Store) (k : StoreKey) (a : Asset)
    (h : getState s k = some a) : (k, a) ∈ s := by
  induction s with
  | nil => simp [getState] at h
  | cons e rest ih =>
    obtain ⟨k1, a1⟩ := e
    by_cases h1 : k1 = k
    · simp only [getState, if_pos h1] at h
      injection h with h2
      subst h1
      subst h2
      exact List.mem_cons_self _ _
    · simp only [getState, if_neg h1] at h
      exact List.mem_cons_of_mem _ (ih h)

theorem nonNegStore_putState (s : Store) (k : StoreKey) (a : Asset)
    (hs : NonNegStore s) (ha : 0 ≤ a.Amount) : NonNegStore (putState s k a) := by
  induction s with
  | nil =>
    intro e he
    simp only [putState, List.mem_singleton] at he
    subst he
    exact ha
  | cons p rest ih =>
    obtain ⟨k1, a1⟩ := p
    have hrest : NonNegStore rest := fun e he => hs e (List.mem_cons_of_mem _ he)
    by_cases hk : k1 = k
    · intro e he
      simp only [putState, if_pos hk, List.mem_cons] at he
      rcases he with he | he
      · subst he; exact ha
      · exact hrest e he
    · intro e he
      simp only [putState, if_neg hk, List.mem_cons] at he
      rcases he with he | he
      · subst he
        exact hs (k1, a1) (List.mem_cons_self _ _)
      · exact ih hrest e he

theorem assetKey_ne_of_owner (id o1 o2 : String) (h : o1 ≠ o2) :
    assetKey id o1 ≠ assetKey id o2 := by
  simp [assetKey, createCompositeKey, h]

theorem assetKey_ne_of_id (i1 i2 o1 o2 : String) (h : i1 ≠ i2) :
    assetKey i1 o1 ≠ assetKey i2 o2 := by
  simp [assetKey, createCompositeKey, h]

theorem isKindKey_assetKey_self (kind o : String) :
    isKindKey kind (assetKey kind o) = true := by
  simp [isKindKey, assetKey, createCompositeKey]

theorem isKindKey_assetKey_ne (k1 k2 o : String) (h : k2 ≠ k1) :
    isKindKey k1 (assetKey k2 o) = false := by
  simp [isKindKey, assetKey, createCompositeKey, h]

@[simp]
theorem setAmount_Amount (a : Asset) (n : Int) : (setAmount a n).Amount = n := rfl

@[simp]
theorem mkAsset_Amount (id owner : String) (n : Int) :
    (mkAsset id owner n).Amount = n := rfl

theorem getD_amount (s : Store) (k : StoreKey) (d : Asset) (hd : d.Amount = 0) :
    ((getState s k).getD d).Amount = amountAt s k := by
  cases hg : getState s k <;> simp [amountAt, hg, hd]

theorem readAsset_ok (store : Store) (id owner : String) (a : Asset) :
    V1.ReadAsset store id owner = Except.ok a ↔
      getState store (assetKey id owner) = some a := by
  unfold V1.ReadAsset
  cases hgs : getState store (assetKey id owner) <;> simp

theorem transferAsset_success (store : Store) (id owner newOwner : String)
    (a : Asset) (n : Int)
    (hget : getState store (assetKey id owner) = some a)
    (hn : ¬ a.Amount < n) :
    V1.TransferAsset store id owner newOwner n =
      (putState (putState store (assetKey id newOwner) (mkAsset id newOwner n))
        (assetKey id owner) (setAmount a (a.Amount - n)),
       Except.ok a.Owner) := by
  have hread : V1.ReadAsset store id owner = Except.ok a := by
    unfold V1.ReadAsset
    rw [hget]
  unfold V1.TransferAsset
  rw [hread]
  dsimp only
  rw [if_neg hn]

theorem transferGem_success (store : Store) (user : String) (a : Asset) (n : Int)
    (hget : getState store (assetKey "gem" user) = some a)
    (hn : ¬ n ≤ 0) (hlt : ¬ a.Amount < n) :
    V2.TransferGemToDistrib store user n =
      (putState
        (putState (putState store (assetKey "gem" user) (setAmount a (a.Amount - n)))
          (assetKey "gem" "Distrib")
          (setAmount
            ((getState store (assetKey "gem" "Distrib")).getD (mkAsset "gem" "Distrib" 0))
            (((getState store (assetKey "gem" "Distrib")).getD
                (mkAsset "gem" "Distrib" 0)).Amount + n)))
        (assetKey "exp" user)
        (setAmount ((getState store (assetKey "exp" user)).getD (mkAsset "exp" user 0))
          (((getState store (assetKey "exp" user)).getD (mkAsset "exp" user 0)).Amount + n)),
       none) := by
  have hEU : assetKey "exp" user ≠ assetKey "gem" user :=
    assetKey_ne_of_id _ _ _ _ (by decide)
  have hED : assetKey "exp" user ≠ assetKey "gem" "Distrib" :=
    assetKey_ne_of_id _ _ _ _ (by decide)
  unfold V2.TransferGemToDistrib
  rw [if_neg hn]
  dsimp only
  rw [hget]
  dsimp only
  rw [if_neg hlt]
  rw [getState_putState_other _ _ _ _ hED, getState_putState_other _ _ _ _ hEU]

theorem nonNegStore_credit (s0 s : Store) (k : StoreKey) (d : Asset) (n : Int)
    (hs0 : NonNegStore s0) (hs : NonNegStore s) (hd : 0 ≤ d.Amount) (hn : 0 ≤ n) :
    NonNegStore (putState s k (setAmount ((getState s0 k).getD d)
      (((getState s0 k).getD d).Amount + n))) := by
  have hv : 0 ≤ ((getState s0 k).getD d).Amount := by
    cases hg : getState s0 k with
    | none => simpa using hd
    | some x => simpa using hs0 _ (getState_mem _ _ _ hg)
  refine nonNegStore_putState _ _ _ hs ?_
  simp only [setAmount_Amount]
  omega

/-! ### Claim theorems -/

/-- Claim C2 (code bug exhibited): on a store holding the record for
(gem, alice) under its composite key, UpdateAsset("gem", "alice", 7)
succeeds, yet the record at the composite key still has Amount 5, and a
second record has appeared under the raw key "gem": the existence check
and the write use different keys. -/
theorem c2_update_writes_raw_key :
    (V1.UpdateAsset storeAlice "gem" "alice" 7).2 = none ∧
    getState (V1.UpdateAsset storeAlice "gem" "alice" 7).1 (assetKey "gem" "alice")
      = some (mkAsset "gem" "alice" 5) ∧
    getState (V1.UpdateAsset storeAlice "gem" "alice" 7).1 (StoreKey.raw "gem")
      = some (mkAsset "gem" "alice" 7) ∧
    getState storeAlice (StoreKey.raw "gem") = none := by
  decide

/-- Claim C5: TransferAsset with amount above the source balance fails
with InsufficientBalance and returns the store untouched. -/
theorem c5_transfer_insufficient (store : Store) (id owner newOwner : String)
    (a : Asset) (n : Int)
    (hget : getState store (assetKey id owner) = some a)
    (hlt : a.Amount < n) :
    V1.TransferAsset store id owner newOwner n
      = (store, Except.error LedgerError.insufficientBalance) := by
  have hread : V1.ReadAsset store id owner = Except.ok a := by
    unfold V1.ReadAsset
    rw [hget]
  unfold V1.TransferAsset
  rw [hread]
  dsimp only
  rw [if_pos hlt]

theorem c5_transfer_insufficient_witness :
    getState storeAB (assetKey "gem" "A") = some (mkAsset "gem" "A" 10) ∧
    V1.TransferAsset storeAB "gem" "A" "B" 100
      = (storeAB, Except.error LedgerError.insufficientBalance) :=
  ⟨by decide,
   c5_transfer_insufficient storeAB "gem" "A" "B" (mkAsset "gem" "A" 10) 100
     (by decide) (by decide)⟩

/-- Claim C6: TransferGemToDistrib with a non-positive amount fails with
InvalidArgument and leaves the whole store unchanged. -/
theorem c6_convert_nonpositive (store : Store) (user : String) (n : Int)
    (h : n ≤ 0) :
    V2.TransferGemToDistrib store user n
      = (store, some LedgerError.invalidArgument) := by
  unfold V2.TransferGemToDistrib
  rw [if_pos h]

theorem c6_convert_nonpositive_witness :
    (0 : Int) ≤ 0 ∧
    V2.TransferGemToDistrib storeDistrib "seo" 0
      = (storeDistrib, some LedgerError.invalidArgument) :=
  ⟨by decide, c6_convert_nonpositive storeDistrib "seo" 0 (by decide)⟩

/-- Claim C7: with no record at (kind, owner), the first CreateAsset
succeeds and writes the record; an immediately following CreateAsset at
the same identity fails with AlreadyExists and changes nothing. -/
theorem c7_create_twice (store : Store) (kind owner : String) (a1 a2 : Int)
    (h : getState store (assetKey kind owner) = none) :
    (V1.CreateAsset store kind a1 owner).2 = none ∧
    getState (V1.CreateAsset store kind a1 owner).1 (assetKey kind owner)
      = some (mkAsset kind owner a1) ∧
    V1.CreateAsset (V1.CreateAsset store kind a1 owner).1 kind a2 owner
      = ((V1.CreateAsset store kind a1 owner).1, some LedgerError.alreadyExists) := by
  have hex : ¬ V1.AssetExists store kind owner = true := by
    unfold V1.AssetExists
    rw [h]
    decide
  have h1 : V1.CreateAsset store kind a1 owner
      = (putState store (assetKey kind owner) (mkAsset kind owner a1), none) := by
    unfold V1.CreateAsset
    rw [if_neg hex]
  have hex2 : V1.AssetExists
      (putState store (assetKey kind owner) (mkAsset kind owner a1)) kind owner = true := by
    unfold V1.AssetExists
    rw [getState_putState_self]
    rfl
  refine ⟨by rw [h1], ?_, ?_⟩
  · rw [h1]
    exact getState_putState_self _ _ _
  · rw [h1]
    unfold V1.CreateAsset
    rw [if_pos hex2]

theorem c7_create_twice_witness :
    getState emptyStore (assetKey "gem" "alice") = none ∧
    (V1.CreateAsset emptyStore "gem" 4 "alice").2 = none ∧
    V1.CreateAsset (V1.CreateAsset emptyStore "gem" 4 "alice").1 "gem" 9 "alice"
      = ((V1.CreateAsset emptyStore "gem" 4 "alice").1,
         some LedgerError.alreadyExists) :=
  ⟨by decide,
   (c7_create_twice emptyStore "gem" "alice" 4 9 (by decide)).1,
   (c7_create_twice emptyStore "gem" "alice" 4 9 (by decide)).2.2⟩

/-- Claim C8: from the empty store, InitLedger followed by GetAllAssets
returns exactly the six literal bootstrap records. -/
theorem c8_init_then_getall :
    V1.GetAllAssets (V1.InitLedger emptyStore) = V1.initAssets := by
  decide

/-- Claim C1 counterexample: with (gem, A) at 10 and (gem, B) at 5,
TransferAsset(gem, A, B, 3) succeeds, but the balance of B afterwards is
3, not 5 + 3: the destination record is overwritten, not accumulated,
and the total for gem drops from 15 to 10. -/
theorem c1_overwrite_counterexample :
    (V1.TransferAsset storeAB "gem" "A" "B" 3).2 = Except.ok "A" ∧
    amountAt storeAB (assetKey "gem" "B") = 5 ∧
    amountAt (V1.TransferAsset storeAB "gem" "A" "B" 3).1 (assetKey "gem" "B") = 3 ∧
    ¬ amountAt (V1.TransferAsset storeAB "gem" "A" "B" 3).1 (assetKey "gem" "B") = 5 + 3 ∧
    totalFor "gem" storeAB = 15 ∧
    totalFor "gem" (V1.TransferAsset storeAB "gem" "A" "B" 3).1 = 10 := by
  decide

/-- Claim C1 as amended: for distinct owners A and B, when (kind, A)
holds balance m and n ≤ m, TransferAsset(kind, A, B, n) succeeds,
afterwards the balance of A is m - n, the record of B is overwritten to
exactly Amount n, and the total for kind decreases by the prior balance
of B, hence is conserved exactly when B had no record before. -/
theorem c1_transfer_amended (store : Store) (kind A B : String) (a : Asset) (n : Int)
    (hAB : A ≠ B)
    (hget : getState store (assetKey kind A) = some a)
    (hmn : n ≤ a.Amount) :
    (V1.TransferAsset store kind A B n).2 = Except.ok a.Owner ∧
    getState (V1.TransferAsset store kind A B n).1 (assetKey kind A)
      = some (setAmount a (a.Amount - n)) ∧
    getState (V1.TransferAsset store kind A B n).1 (assetKey kind B)
      = some (mkAsset kind B n) ∧
    totalFor kind (V1.TransferAsset store kind A B n).1
      = totalFor kind store - amountAt store (assetKey kind B) := by
  have hn : ¬ a.Amount < n := not_lt.mpr hmn
  have hkey : assetKey kind A ≠ assetKey kind B := assetKey_ne_of_owner kind A B hAB
  rw [transferAsset_success store kind A B a n hget hn]
  refine ⟨rfl, ?_, ?_, ?_⟩
  · exact getState_putState_self _ _ _
  · rw [getState_putState_other _ _ _ _ (Ne.symm hkey)]
    exact getState_putState_self _ _ _
  · rw [totalFor_putState, totalFor_putState,
      amountAt_putState_other _ _ _ _ hkey, amountAt_of_getState _ _ _ hget,
      isKindKey_assetKey_self, isKindKey_assetKey_self]
    simp only [if_true, setAmount_Amount, mkAsset_Amount]
    ring

theorem c1_transfer_amended_witness :
    ("A" : String) ≠ "B" ∧
    getState storeAB (assetKey "gem" "A") = some (mkAsset "gem" "A" 10) ∧
    totalFor "gem" (V1.TransferAsset storeAB "gem" "A" "B" 3).1
      = totalFor "gem" storeAB - amountAt storeAB (assetKey "gem" "B") :=
  ⟨by decide, by decide,
   (c1_transfer_amended storeAB "gem" "A" "B" (mkAsset "gem" "A" 10) 3
     (by decide) (by decide) (by decide)).2.2.2⟩

/-- Claim C9: a self transfer TransferAsset(kind, A, A, n) with
0 < n ≤ m succeeds and leaves the single record at (kind, A) with
balance m - n: the destination credit is overwritten by the later
source write, and n units of kind vanish from the total supply. -/
theorem c9_self_transfer (store : Store) (kind A : String) (a : Asset) (n : Int)
    (hget : getState store (assetKey kind A) = some a)
    (_hpos : 0 < n) (hmn : n ≤ a.Amount) :
    (V1.TransferAsset store kind A A n).2 = Except.ok a.Owner ∧
    getState (V1.TransferAsset store kind A A n).1 (assetKey kind A)
      = some (setAmount a (a.Amount - n)) ∧
    totalFor kind (V1.TransferAsset store kind A A n).1
      = totalFor kind store - n := by
  have hn : ¬ a.Amount < n := not_lt.mpr hmn
  rw [transferAsset_success store kind A A a n hget hn]
  refine ⟨rfl, getState_putState_self _ _ _, ?_⟩
  rw [totalFor_putState, totalFor_putState, amountAt_putState_self,
    amountAt_of_getState _ _ _ hget, isKindKey_assetKey_self]
  simp only [if_true, setAmount_Amount, mkAsset_Amount]
  ring

theorem c9_self_transfer_witness :
    getState storeAB (assetKey "gem" "A") = some (mkAsset "gem" "A" 10) ∧
    (0 : Int) < 4 ∧ (4 : Int) ≤ 10 ∧
    totalFor "gem" (V1.TransferAsset storeAB "gem" "A" "A" 4).1
      = totalFor "gem" storeAB - 4 :=
  ⟨by decide, by decide, by decide,
   (c9_self_transfer storeAB "gem" "A" (mkAsset "gem" "A" 10) 4
     (by decide) (by decide) (by decide)).2.2⟩

/-- Claim C3 counterexample: CreateAsset performs no amount validation,
so on the empty (hence all-non-negative) store it stores a record with
Amount -1, breaking the non-negativity invariant. -/
theorem c3_negative_counterexample :
    (V1.CreateAsset emptyStore "gem" (-1) "alice").2 = none ∧
    getState (V1.CreateAsset emptyStore "gem" (-1) "alice").1 (assetKey "gem" "alice")
      = some (mkAsset "gem" "alice" (-1)) ∧
    ¬ NonNegStore (V1.CreateAsset emptyStore "gem" (-1) "alice").1 := by
  decide

/-- Claim C3 as amended: on a store whose records are all non-negative,
every operation preserves non-negativity provided its amount argument is
non-negative (TransferGemToDistrib validates its own amount and needs no
side condition). -/
theorem c3_nonneg_amended (store : Store) (h : NonNegStore store) :
    (∀ id amount owner, 0 ≤ amount →
        NonNegStore (V1.CreateAsset store id amount owner).1) ∧
    (∀ id owner amount, 0 ≤ amount →
        NonNegStore (V1.UpdateAsset store id owner amount).1) ∧
    (∀ id owner newOwner amount, 0 ≤ amount →
        NonNegStore (V1.TransferAsset store id owner newOwner amount).1) ∧
    (∀ user gemAmount, NonNegStore (V2.TransferGemToDistrib store user gemAmount).1) := by
  refine ⟨?_, ?_, ?_, ?_⟩
  · intro id amount owner ha
    unfold V1.CreateAsset
    by_cases hex : V1.AssetExists store id owner = true
    · rw [if_pos hex]
      exact h
    · rw [if_neg hex]
      exact nonNegStore_putState _ _ _ h ha
  · intro id owner amount ha
    unfold V1.UpdateAsset
    by_cases hex : V1.AssetExists store id owner = true
    · rw [if_pos hex]
      exact nonNegStore_putState _ _ _ h ha
    · rw [if_neg hex]
      exact h
  · intro id owner newOwner amount ha
    unfold V1.TransferAsset
    cases hread : V1.ReadAsset store id owner with
    | error e => exact h
    | ok asset =>
      dsimp only
      by_cases hlt : asset.Amount < amount
      · rw [if_pos hlt]
        exact h
      · rw [if_neg hlt]
        have hg : getState store (assetKey id owner) = some asset :=
          (readAsset_ok store id owner asset).mp hread
        have h0 : 0 ≤ asset.Amount := h _ (getState_mem _ _ _ hg)
        refine nonNegStore_putState _ _ _ (nonNegStore_putState _ _ _ h ha) ?_
        simp only [setAmount_Amount]
        omega
  · intro user gemAmount
    unfold V2.TransferGemToDistrib
    by_cases hn : gemAmount ≤ 0
    · rw [if_pos hn]
      exact h
    · rw [if_neg hn]
      dsimp only
      cases hg : getState store (assetKey "gem" user) with
      | none => exact h
      | some userGem =>
        dsimp only
        by_cases hlt : userGem.Amount < gemAmount
        · rw [if_pos hlt]
          exact h
        · rw [if_neg hlt]
          have h0 : 0 ≤ userGem.Amount := h _ (getState_mem _ _ _ hg)
          have h1 : NonNegStore (putState store (assetKey "gem" user)
              (setAmount userGem (userGem.Amount - gemAmount))) := by
            refine nonNegStore_putState _ _ _ h ?_
            simp only [setAmount_Amount]
            omega
          exact nonNegStore_credit _ _ _ _ _
            (nonNegStore_credit _ _ _ _ _ h h1 (by simp [mkAsset]) (by omega))
            (nonNegStore_credit _ _ _ _ _ h h1 (by simp [mkAsset]) (by omega))
            (by simp [mkAsset]) (by omega)

theorem c3_nonneg_amended_witness :
    NonNegStore storeAlice ∧
    NonNegStore (V1.CreateAsset storeAlice "gem" 4 "bob").1 :=
  ⟨by decide, (c3_nonneg_amended storeAlice (by decide)).1 "gem" 4 "bob" (by decide)⟩

/-- Claim C4 counterexample: for user = "Distrib" with gem balance 5 and
amount 2, the conversion succeeds but the gem balance of "Distrib"
becomes 7, not 5 - 2 = 3, and the gem total grows by 2. -/
theorem c4_distrib_counterexample :
    (V2.TransferGemToDistrib storeDistrib "Distrib" 2).2 = none ∧
    amountAt storeDistrib (assetKey "gem" "Distrib") = 5 ∧
    amountAt (V2.TransferGemToDistrib storeDistrib "Distrib" 2).1
      (assetKey "gem" "Distrib") = 7 ∧
    ¬ amountAt (V2.TransferGemToDistrib storeDistrib "Distrib" 2).1
      (assetKey "gem" "Distrib") = 5 - 2 ∧
    totalFor "gem" (V2.TransferGemToDistrib storeDistrib "Distrib" 2).1
      = totalFor "gem" storeDistrib + 2 := by
  decide

/-- Claim C4 as amended: for every user other than "Distrib" and every
0 < n ≤ m, the conversion succeeds, the user gem balance becomes m - n,
the collector gem balance and the user exp balance each grow by n
(defaulting from 0 when absent), gem supply is conserved and exp supply
grows by exactly n. -/
theorem c4_convert_amended (store : Store) (user : String) (a : Asset) (n : Int)
    (huser : user ≠ "Distrib")
    (hget : getState store (assetKey "gem" user) = some a)
    (hpos : 0 < n) (hmn : n ≤ a.Amount) :
    (V2.TransferGemToDistrib store user n).2 = none ∧
    getState (V2.TransferGemToDistrib store user n).1 (assetKey "gem" user)
      = some (setAmount a (a.Amount - n)) ∧
    amountAt (V2.TransferGemToDistrib store user n).1 (assetKey "gem" "Distrib")
      = amountAt store (assetKey "gem" "Distrib") + n ∧
    amountAt (V2.TransferGemToDistrib store user n).1 (assetKey "exp" user)
      = amountAt store (assetKey "exp" user) + n ∧
    totalFor "gem" (V2.TransferGemToDistrib store user n).1 = totalFor "gem" store ∧
    totalFor "exp" (V2.TransferGemToDistrib store user n).1
      = totalFor "exp" store + n := by
  have hn : ¬ n ≤ 0 := by omega
  have hlt : ¬ a.Amount < n := not_lt.mpr hmn
  have hUD : assetKey "gem" user ≠ assetKey "gem" "Distrib" :=
    assetKey_ne_of_owner _ _ _ huser
  have hEU : assetKey "exp" user ≠ assetKey "gem" user :=
    assetKey_ne_of_id _ _ _ _ (by decide)
  have hED : assetKey "exp" user ≠ assetKey "gem" "Distrib" :=
    assetKey_ne_of_id _ _ _ _ (by decide)
  rw [transferGem_success store user a n hget hn hlt]
  refine ⟨rfl, ?_, ?_, ?_, ?_, ?_⟩
  · rw [getState_putState_other _ _ _ _ (Ne.symm hEU),
      getState_putState_other _ _ _ _ hUD]
    exact getState_putState_self _ _ _
  · rw [amountAt_putState_other _ _ _ _ (Ne.symm hED), amountAt_putState_self,
      setAmount_Amount, getD_amount _ _ _ rfl]
  · rw [amountAt_putState_self, setAmount_Amount, getD_amount _ _ _ rfl]
  · rw [totalFor_putState, totalFor_putState, totalFor_putState,
      amountAt_putState_other _ _ _ _ (Ne.symm hUD),
      amountAt_of_getState _ _ _ hget,
      isKindKey_assetKey_self, isKindKey_assetKey_self,
      isKindKey_assetKey_ne "gem" "exp" user (by decide),
      setAmount_Amount, setAmount_Amount, getD_amount _ _ _ rfl]
    simp
  · rw [totalFor_putState, totalFor_putState, totalFor_putState,
      amountAt_putState_other _ _ _ _ hED, amountAt_putState_other _ _ _ _ hEU,
      isKindKey_assetKey_self,
      isKindKey_assetKey_ne "exp" "gem" user (by decide),
      isKindKey_assetKey_ne "exp" "gem" "Distrib" (by decide),
      setAmount_Amount]
    simp [getD_amount]

theorem c4_convert_amended_witness :
    ("seo" : String) ≠ "Distrib" ∧
    getState storeSeo (assetKey "gem" "seo") = some (mkAsset "gem" "seo" 10) ∧
    totalFor "gem" (V2.TransferGemToDistrib storeSeo "seo" 4).1
      = totalFor "gem" storeSeo :=
  ⟨by decide, by decide,
   (c4_convert_amended storeSeo "seo" (mkAsset "gem" "seo" 10) 4
     (by decide) (by decide) (by decide) (by decide)).2.2.2.2.1⟩

/-- Claim C10: invoking the conversion with user = "Distrib" makes the
user gem key and the collector gem key coincide; the collector credit
(computed from the balance read before any write) is written last, so
the final gem balance of "Distrib" is m + n and gem supply grows by n. -/
theorem c10_convert_self_mints (store : Store) (a : Asset) (n : Int)
    (hget : getState store (assetKey "gem" "Distrib") = some a)
    (hpos : 0 < n) (hmn : n ≤ a.Amount) :
    (V2.TransferGemToDistrib store "Distrib" n).2 = none ∧
    getState (V2.TransferGemToDistrib store "Distrib" n).1 (assetKey "gem" "Distrib")
      = some (setAmount a (a.Amount + n)) ∧
    totalFor "gem" (V2.TransferGemToDistrib store "Distrib" n).1
      = totalFor "gem" store + n := by
  have hn : ¬ n ≤ 0 := by omega
  have hlt : ¬ a.Amount < n := not_lt.mpr hmn
  have hED : assetKey "exp" "Distrib" ≠ assetKey "gem" "Distrib" :=
    assetKey_ne_of_id _ _ _ _ (by decide)
  rw [transferGem_success store "Distrib" a n hget hn hlt, hget]
  simp only [Option.getD_some]
  refine ⟨trivial, ?_, ?_⟩
  · rw [getState_putState_other _ _ _ _ (Ne.symm hED)]
    exact getState_putState_self _ _ _
  · rw [totalFor_putState, totalFor_putState, totalFor_putState,
      amountAt_putState_self, amountAt_of_getState _ _ _ hget,
      isKindKey_assetKey_self,
      isKindKey_assetKey_ne "gem" "exp" "Distrib" (by decide),
      setAmount_Amount, setAmount_Amount]
    simp
    ring

theorem c10_convert_self_mints_witness :
    getState storeDistrib (assetKey "gem" "Distrib")
      = some (mkAsset "gem" "Distrib" 5) ∧
    totalFor "gem" (V2.TransferGemToDistrib storeDistrib "Distrib" 2).1
      = totalFor "gem" storeDistrib + 2 :=
  ⟨by decide,
   (c10_convert_self_mints storeDistrib (mkAsset "gem" "Distrib" 5) 2
     (by decide) (by decide) (by decide)).2.2⟩
